import Mathlib

/-!
Shallow embedding of the transfer orchestration engine of the uploader
repository: the per-task retry loop, sequential dispatch, completion
signalling, progress accounting and the per-worker thread body from
`src/models/worker.py`, the bandwidth throttle from
`src/models/protocols/base.py`, and the file collector
(`EnhancedUploadWorker.collect_files` / `_should_ignore`).

Python floats are modelled as rationals, machine file sizes as `Nat`,
the local filesystem as a static map from paths to sizes, and the
backend adapter's fallible calls (`connect`, `upload_file`) as boolean
oracles supplied per attempt.  The cooperative `should_cancel` flag is
modelled by boolean functions giving the value observed at each
checkpoint (one read before each task, one at the top of each retry
iteration, one at completion time).
-/

namespace Uploader

/-- A static view of the local filesystem during one session:
`fs p = some n` means the file at path `p` exists with size `n` bytes
(`os.path.exists` true, `os.path.getsize` returns `n`); `none` means the
file is missing (`os.path.exists` false, `os.path.getsize` raises
`OSError`). -/
abbrev Fs := String → Option Nat

/-- Python `int(x)` applied to a float: truncation toward zero. -/
def pyInt (q : ℚ) : Int := if q < 0 then -⌊-q⌋ else ⌊q⌋

/-- Result of the `for attempt in range(self.max_retries + 1)` retry loop of
`EnhancedUploadWorker.upload_single_file` (worker.py:280-315) and
`upload_single_file_threaded` (worker.py:359-390): how many times
`uploader.upload_file` was called, the final value of `success`, and how
many fixed-delay `time.sleep(2)` waits ran between failed attempts. -/
structure RetryResult where
  attempts : Nat
  success : Bool
  sleeps : Nat
deriving Repr, DecidableEq

/-- The body of the retry loop, from iteration `attempt` with `fuel`
iterations of `range` left.  `ok a` is the success flag returned by
`uploader.upload_file` on attempt `a`; `cancel a` is the value of
`self.should_cancel` read at the top of iteration `a` (`if
self.should_cancel: break`).  After a failed attempt with
`attempt < max_retries` the code sleeps two seconds and retries. -/
def retryGo (maxRetries : Nat) (ok cancel : Nat → Bool) : Nat → Nat → RetryResult
  | _, 0 => ⟨0, false, 0⟩
  | attempt, fuel + 1 =>
    if cancel attempt then ⟨0, false, 0⟩
    else if ok attempt then ⟨1, true, 0⟩
    else if attempt < maxRetries then
      let r := retryGo maxRetries ok cancel (attempt + 1) fuel
      ⟨r.attempts + 1, r.success, r.sleeps + 1⟩
    else ⟨1, false, 0⟩

/-- The whole retry loop: `for attempt in range(self.max_retries + 1)`. -/
def retryLoop (maxRetries : Nat) (ok cancel : Nat → Bool) : RetryResult :=
  retryGo maxRetries ok cancel 0 (maxRetries + 1)

/-- Fixed delay, in seconds, slept between consecutive failed attempts
(`time.sleep(2)` at worker.py:315 and worker.py:390). -/
def retryDelaySeconds : Nat := 2

/-- One `overall_progress_signal` payload:
`(int(uploaded_bytes), int(total_bytes), overall_percent)`. -/
structure OverallProgress where
  uploadedBytes : Int
  totalBytes : Int
  percent : ℚ
deriving Repr, DecidableEq

/-- The nested `progress_callback(percent)` of `upload_single_file`
(worker.py:287-307) and `upload_single_file_threaded` (worker.py:366-382):
`bytes_sent_this_file = file_size * percent / 100`,
`overall_bytes_uploaded = self.uploaded_bytes + bytes_sent_this_file`,
`overall_percent = overall_bytes_uploaded / total_bytes * 100` guarded by
`total_bytes > 0` (else `0`); it emits the overall-progress triple and,
when `elapsed > 0`, a speed sample `bytes_sent_this_file / 1024 / elapsed`
(KB/s).  It never writes `self.uploaded_bytes`. -/
def progress_callback (fileSize uploadedBytes totalBytes percent elapsed : ℚ) :
    OverallProgress × Option ℚ :=
  let bytesSentThisFile := fileSize * percent / 100
  let overallBytesUploaded := uploadedBytes + bytesSentThisFile
  let overallPercent :=
    if 0 < totalBytes then overallBytesUploaded / totalBytes * 100 else 0
  (⟨pyInt overallBytesUploaded, pyInt totalBytes, overallPercent⟩,
   if 0 < elapsed then some (bytesSentThisFile / 1024 / elapsed) else none)

/-- The sequence of events produced by a run of in-flight progress callbacks
for one file of size `fileSize`, together with the value of
`self.uploaded_bytes` afterwards.  The callback reads `self.uploaded_bytes`
but never assigns it, so every call uses the same base `uploadedBytes` and
the aggregate it reports replaces, rather than accumulates, the file's own
prior contribution. -/
def run_progress_callbacks (fileSize uploadedBytes totalBytes : ℚ)
    (calls : List (ℚ × ℚ)) : List (OverallProgress × Option ℚ) × ℚ :=
  (calls.map (fun c => progress_callback fileSize uploadedBytes totalBytes c.1 c.2),
   uploadedBytes)

/-- The final `overall_progress_signal` emitted after a task's terminal
success (worker.py:330-332 and worker.py:404-406), with the same
`total_bytes > 0` guard on the percent. -/
def final_overall_progress (uploadedBytes totalBytes : Nat) : OverallProgress :=
  ⟨(uploadedBytes : Int), (totalBytes : Int),
   if 0 < totalBytes then (uploadedBytes : ℚ) / (totalBytes : ℚ) * 100 else 0⟩

/-- An `all_completed_signal` payload: `(success, message, successful, failed)`. -/
structure CompletionEvent where
  success : Bool
  message : String
  succeeded : Nat
  failed : Nat
deriving Repr, DecidableEq

/-- `EnhancedUploadWorker.emit_completion_signal` (worker.py:427-434):
canceled sessions report `(False, "Upload canceled", ...)`, sessions with
no failure report success, and sessions with failures report an error
summary; every branch carries the tallied counts. -/
def emit_completion_signal (shouldCancel : Bool) (successful failed total : Nat) :
    CompletionEvent :=
  if shouldCancel then ⟨false, "Upload canceled", successful, failed⟩
  else if failed = 0 then
    ⟨true, s!"All {total} files uploaded successfully", successful, failed⟩
  else ⟨false, s!"Upload completed with {failed} errors", successful, failed⟩

/-- `BaseUploader._throttle_bandwidth(bytes_sent)` (base.py:35-49) as a
state transition.  `bandwidthLimit` is the configured `bandwidth_limit`
(KB/s, `0` = unlimited, checked with `<= 0`); `bytesTransferred` is the
cumulative `self.bytes_transferred` before the call; `elapsed` is
`time.time() - self.last_byte_time`, the time since the connection object
was created (`last_byte_time` is set once in `__init__` and never updated).
Returns the updated cumulative byte count and the number of seconds the
calling thread is blocked (`time.sleep(expected_time - actual_time)`,
`0` when no sleep happens).  When the limit is not positive the method
returns immediately, leaving the counter untouched. -/
def throttle_bandwidth (bandwidthLimit : Int) (bytesTransferred bytesSent elapsed : ℚ) :
    ℚ × ℚ :=
  if bandwidthLimit ≤ 0 then (bytesTransferred, 0)
  else
    let bytes := bytesTransferred + bytesSent
    let expectedTime := bytes / ((bandwidthLimit : ℚ) * 1024)
    if elapsed < expectedTime then (bytes, expectedTime - elapsed)
    else (bytes, 0)

/-- A sequence of chunk deliveries through the throttle: each element of
`chunks` is `(bytes_sent, elapsed-at-that-call)`.  Returns the final
cumulative byte counter and the list of sleep durations. -/
def throttle_run (bandwidthLimit : Int) : List (ℚ × ℚ) → ℚ → ℚ × List ℚ
  | [], bytes => (bytes, [])
  | c :: rest, bytes =>
    let r := throttle_bandwidth bandwidthLimit bytes c.1 c.2
    let rr := throttle_run bandwidthLimit rest r.1
    (rr.1, r.2 :: rr.2)

/-- Outcome of one `upload_single_file` / `upload_single_file_threaded`
call: the retry-loop result, the value of `self.uploaded_bytes` after the
call, and the final overall-progress event (emitted only on success and
only when the file's size could be read). -/
structure TaskOutcome where
  retry : RetryResult
  uploadedBytes : Nat
  finalEvent : Option OverallProgress
deriving Repr, DecidableEq

/-- `EnhancedUploadWorker.upload_single_file` (worker.py:272-343), restricted
to its state effect: run the retry loop; on success read the file's
on-disk size and add the full size to `self.uploaded_bytes`, emitting a
final overall-progress event (if `os.path.getsize` raises, only a warning
is logged and `uploaded_bytes` is left unchanged, yet the task still
counts as succeeded). -/
def upload_single_file (fs : Fs) (maxRetries : Nat) (ok cancel : Nat → Bool)
    (localPath : String) (uploadedBytes totalBytes : Nat) : TaskOutcome :=
  let r := retryLoop maxRetries ok cancel
  if r.success then
    match fs localPath with
    | some sz =>
      let u := uploadedBytes + sz
      ⟨r, u, some (final_overall_progress u totalBytes)⟩
    | none => ⟨r, uploadedBytes, none⟩
  else ⟨r, uploadedBytes, none⟩

/-- `EnhancedUploadWorker.upload_single_file_threaded` (worker.py:345-415):
identical to the sequential variant except that the file size is read
once up front, a missing file returning `False` before any attempt. -/
def upload_single_file_threaded (fs : Fs) (maxRetries : Nat) (ok cancel : Nat → Bool)
    (localPath : String) (uploadedBytes totalBytes : Nat) : TaskOutcome :=
  match fs localPath with
  | none => ⟨⟨0, false, 0⟩, uploadedBytes, none⟩
  | some sz =>
    let r := retryLoop maxRetries ok cancel
    if r.success then
      let u := uploadedBytes + sz
      ⟨r, u, some (final_overall_progress u totalBytes)⟩
    else ⟨r, uploadedBytes, none⟩

/-- The mutable tallies of a dispatch run: `successful_uploads`,
`failed_uploads` and `self.uploaded_bytes`. -/
structure DispatchState where
  successful : Nat
  failed : Nat
  uploadedBytes : Nat
deriving Repr, DecidableEq

/-- `EnhancedUploadWorker.upload_files_sequential` (worker.py:252-270):
iterate the collected tasks in order; before each task read
`self.should_cancel` (`cancelBefore i` for the `i`-th task) and stop if it
is set; otherwise upload the task with retries (`ok i` / `cancelRetry i`
being the oracles for task `i`) and bump the success or failure tally.
The pause loop only delays and is invisible to this state. -/
def upload_files_sequential (fs : Fs) (maxRetries : Nat) (ok : Nat → Nat → Bool)
    (cancelBefore : Nat → Bool) (cancelRetry : Nat → Nat → Bool) (totalBytes : Nat) :
    List (String × String) → Nat → DispatchState → DispatchState
  | [], _, st => st
  | t :: rest, i, st =>
    if cancelBefore i then st
    else
      let o := upload_single_file fs maxRetries (ok i) (cancelRetry i) t.1
        st.uploadedBytes totalBytes
      let st' : DispatchState :=
        if o.retry.success then ⟨st.successful + 1, st.failed, o.uploadedBytes⟩
        else ⟨st.successful, st.failed + 1, o.uploadedBytes⟩
      upload_files_sequential fs maxRetries ok cancelBefore cancelRetry totalBytes
        rest (i + 1) st'

/-- `self.total_bytes = sum(os.path.getsize(local_path) for local_path, _ in
all_files if os.path.exists(local_path))` (worker.py:66): the sum of the
sizes of the collected tasks whose local file exists. -/
def total_bytes_of (fs : Fs) (tasks : List (String × String)) : Nat :=
  (tasks.filterMap (fun t => fs t.1)).sum

/-- Observable result of one `EnhancedUploadWorker.run` (worker.py:43-79):
the completion event, the computed `total_bytes`, the final
`uploaded_bytes`, how many tasks an upload was started for, and how many
times `uploader.disconnect()` ran on the session-level connection. -/
structure SessionResult where
  event : CompletionEvent
  totalBytes : Nat
  uploadedBytes : Nat
  tasksAttempted : Nat
  disconnects : Nat
deriving Repr, DecidableEq

/-- `EnhancedUploadWorker.run` (worker.py:43-79) on the sequential dispatch
path, for an already-collected task list.  A failed `connect` logs and
emits `(False, message, 0, 0)` and returns without attempting any task;
otherwise `total_bytes` is computed once, the tasks are dispatched, and
`emit_completion_signal` reports the tallies (`finalCancel` is the value
of `self.should_cancel` read there).  The `try`/`finally` around the body
runs `uploader.disconnect()` exactly once on both paths. -/
def runSession (fs : Fs) (maxRetries : Nat) (connectOk : Bool) (connectMsg : String)
    (ok : Nat → Nat → Bool) (cancelBefore : Nat → Bool) (cancelRetry : Nat → Nat → Bool)
    (finalCancel : Bool) (tasks : List (String × String)) : SessionResult :=
  if connectOk then
    let total := total_bytes_of fs tasks
    let st := upload_files_sequential fs maxRetries ok cancelBefore cancelRetry total
      tasks 0 ⟨0, 0, 0⟩
    ⟨emit_completion_signal finalCancel st.successful st.failed tasks.length,
     total, st.uploadedBytes, st.successful + st.failed, 1⟩
  else ⟨⟨false, connectMsg, 0, 0⟩, 0, 0, 0, 1⟩

/-- Result of one `upload_files_threaded.upload_worker` call: the task's
success flag and how many times `thread_uploader.disconnect()` ran. -/
structure WorkerResult where
  success : Bool
  disconnects : Nat
deriving Repr, DecidableEq

/-- `upload_files_threaded.upload_worker` (worker.py:190-214): create a
fresh per-thread uploader (`createOk` = the factory returned one), connect
it (`connectOk`), then upload one file inside `try ... finally:
thread_uploader.disconnect()`.  The `finally` wraps only the upload call:
when `connect` fails the worker returns at worker.py:201, before the
`try`, so no `disconnect` runs on that path. -/
def upload_worker (createOk connectOk : Bool) (fs : Fs) (maxRetries : Nat)
    (ok cancel : Nat → Bool) (localPath : String) (uploadedBytes totalBytes : Nat) :
    WorkerResult :=
  if !createOk then ⟨false, 0⟩
  else if !connectOk then ⟨false, 0⟩
  else
    ⟨(upload_single_file_threaded fs maxRetries ok cancel localPath uploadedBytes
        totalBytes).retry.success, 1⟩

/-- The tally and byte-counter effect of
`EnhancedUploadWorker.upload_files_threaded` (worker.py:181-250).  Every
collected task is submitted to its own worker; a worker whose adapter
factory returns nothing (worker.py:195-196) or whose `connect` fails
(worker.py:198-201) returns `(False, 0)` before both the upload and the
tally block (worker.py:208-212) — and `future.result()` then returns that
tuple without raising, so the `except` path (worker.py:240-243) does not
fire either: such a task increments neither counter and uploads nothing.
Otherwise the worker uploads the task with retries and bumps exactly one
tally under the lock.  The counters are commutative, so the pool's
undefined completion order is modelled by in-order accumulation; the
`as_completed` cancel break only stops waiting and leaves the tallies of
finished workers unchanged, and is not modelled.  `createOk i` /
`connectOk i` tell whether task `i`'s worker was created and connected. -/
def upload_files_threaded (fs : Fs) (mr : Nat) (createOk connectOk : Nat → Bool)
    (ok : Nat → Nat → Bool) (cancelRetry : Nat → Nat → Bool) (totalBytes : Nat) :
    List (String × String) → Nat → DispatchState → DispatchState
  | [], _, st => st
  | t :: rest, i, st =>
    let st' : DispatchState :=
      if !createOk i then st
      else if !connectOk i then st
      else
        let o := upload_single_file_threaded fs mr (ok i) (cancelRetry i) t.1
          st.uploadedBytes totalBytes
        if o.retry.success then ⟨st.successful + 1, st.failed, o.uploadedBytes⟩
        else ⟨st.successful, st.failed + 1, o.uploadedBytes⟩
    upload_files_threaded fs mr createOk connectOk ok cancelRetry totalBytes rest (i + 1) st'

/-- `EnhancedUploadWorker.run` (worker.py:43-79) on the multi-threaded
dispatch path (`max_threads > 1`), for an already-collected task list:
like `runSession` but dispatching through `upload_files_threaded`. -/
def runSessionThreaded (fs : Fs) (mr : Nat) (connectOk : Bool) (connectMsg : String)
    (createOk workerConnectOk : Nat → Bool) (ok : Nat → Nat → Bool)
    (cancelRetry : Nat → Nat → Bool) (finalCancel : Bool)
    (tasks : List (String × String)) : SessionResult :=
  if connectOk then
    let total := total_bytes_of fs tasks
    let st := upload_files_threaded fs mr createOk workerConnectOk ok cancelRetry total
      tasks 0 ⟨0, 0, 0⟩
    ⟨emit_completion_signal finalCancel st.successful st.failed tasks.length,
     total, st.uploadedBytes, st.successful + st.failed, 1⟩
  else ⟨⟨false, connectMsg, 0, 0⟩, 0, 0, 0, 1⟩

/-- How many of `n` consecutive tasks starting at index `i` have a worker
that was both created and connected — exactly the tasks the threaded
tallies can count. -/
def workers_reached (createOk connectOk : Nat → Bool) : Nat → Nat → Nat
  | _, 0 => 0
  | i, n + 1 =>
    (if createOk i && connectOk i then 1 else 0)
      + workers_reached createOk connectOk (i + 1) n

/-- Python's `filename.startswith('.')`: the name's first character is a
dot (false for the empty string). -/
def startsWithDot (s : String) : Bool :=
  match s.data with
  | [] => false
  | c :: _ => c = '.'

/-- `EnhancedUploadWorker._should_ignore(filename, patterns)`
(worker.py:417-425): a name is ignored when hidden files are excluded and
it starts with a dot, or when any compiled ignore pattern matches it
(`pattern.search` is modelled as a boolean matcher on the name). -/
def should_ignore (includeHiddenFiles : Bool) (patterns : List (String → Bool))
    (filename : String) : Bool :=
  (!includeHiddenFiles && startsWithDot filename) ||
    patterns.any (fun p => p filename)

/-- A directory's contents, as `os.walk` sees one directory level: the
plain files and the named subdirectories it lists. -/
inductive Tree where
  | node (files : List String) (subdirs : List (String × Tree))

/-- `os.walk(file_path)` combined with the in-place pruning and the file
filter of `collect_files` (worker.py:157-163): at each directory, emit the
kept files of the current level (`pre ++ [name]`), then recurse, in listing
order, into exactly the subdirectories whose name is not ignored
(`dirs[:] = [d for d in dirs if not self._should_ignore(d, ...)]`).
Local paths are component lists; `pre` is the path of the current
directory. -/
def walkTree (ign : String → Bool) (pre : List String) : Tree → List (List String)
  | Tree.node files subdirs =>
    (files.filter (fun n => !ign n)).map (fun n => pre ++ [n]) ++
      subdirs.attach.flatMap (fun d =>
        if ign d.1.1 then [] else walkTree ign (pre ++ [d.1.1]) d.1.2)
termination_by t => sizeOf t
decreasing_by
  have h1 := List.sizeOf_lt_of_mem d.2
  cases hd : d.1 with
  | mk a b => rw [hd] at h1; simp at h1 ⊢; omega

/-- Render a component path with forward-slash separators. -/
def renderPath (p : List String) : String := String.intercalate "/" p

/-- `os.path.join(self.remote_dir, rel_path).replace('\\', '/')`
(worker.py:174) for a relative `rel` on a posix-style base: an empty base
yields `rel` itself, a base ending in a separator is concatenated
directly, otherwise a `/` is inserted. -/
def joinRemote (base rel : String) : String :=
  if base = "" then rel
  else if base.endsWith "/" then base ++ rel
  else base ++ "/" ++ rel

/-- One selection root as `collect_files` (worker.py:148-179) classifies
it: a plain file (`os.path.isfile`), a directory with its contents
(`os.path.isdir`), or a root whose processing raises `OSError`. -/
inductive RootSel where
  | fileRoot (path : List String)
  | dirRoot (path : List String) (tree : Tree)
  | badRoot (path : List String)

/-- The contribution of one selection root to `all_files`
(worker.py:149-177).  A file root is kept as `(path, basename)` unless its
basename is ignored.  A directory root whose basename is ignored is
skipped; otherwise its walk is emitted, each file mapped to
`(local, join(remote_dir, rel))` where `rel` is the path relative to the
root itself (`upload_directory_contents_only`) or to the root's parent
directory (default).  A root that raises `OSError` is logged and
contributes nothing. -/
def collect_root (includeHiddenFiles : Bool) (patterns : List (String → Bool))
    (contentsOnly : Bool) (remoteDir : String) :
    RootSel → List (List String × String)
  | RootSel.fileRoot p =>
    if should_ignore includeHiddenFiles patterns (p.getLastD "") then []
    else [(p, p.getLastD "")]
  | RootSel.dirRoot p tree =>
    if should_ignore includeHiddenFiles patterns (p.getLastD "") then []
    else
      (walkTree (should_ignore includeHiddenFiles patterns) p tree).map
        (fun localPath =>
          let rel :=
            if contentsOnly then localPath.drop p.length
            else localPath.drop p.dropLast.length
          (localPath, joinRemote remoteDir (renderPath rel)))
  | RootSel.badRoot _ => []

/-- `EnhancedUploadWorker.collect_files` (worker.py:138-179) over a list of
selection roots: the concatenation, in selection order, of each root's
contribution. -/
def collect_files (includeHiddenFiles : Bool) (patterns : List (String → Bool))
    (contentsOnly : Bool) (remoteDir : String) (roots : List RootSel) :
    List (List String × String) :=
  roots.flatMap (collect_root includeHiddenFiles patterns contentsOnly remoteDir)

/-! ## Retry-loop lemmas -/

theorem retryGo_all_fail (maxRetries : Nat) (ok cancel : Nat → Bool)
    (hnc : ∀ a, cancel a = false) (hf : ∀ a, ok a = false) :
    ∀ fuel start, start + fuel = maxRetries + 1 →
      retryGo maxRetries ok cancel start fuel = ⟨fuel, false, fuel - 1⟩ := by
  intro fuel
  induction fuel with
  | zero => intro start _; rfl
  | succ f ih =>
    intro start h
    simp only [retryGo, hnc, hf, Bool.false_eq_true, if_false]
    by_cases hs : start < maxRetries
    · rw [if_pos hs, ih (start + 1) (by omega)]
      simp only [RetryResult.mk.injEq, true_and, and_true]
      omega
    · rw [if_neg hs]
      have hf0 : f = 0 := by omega
      subst hf0
      rfl

theorem retryGo_last_success (maxRetries : Nat) (ok cancel : Nat → Bool)
    (hnc : ∀ a, cancel a = false) (hf : ∀ a, a < maxRetries → ok a = false)
    (hs : ok maxRetries = true) :
    ∀ fuel start, start + fuel = maxRetries + 1 → 0 < fuel →
      retryGo maxRetries ok cancel start fuel = ⟨fuel, true, fuel - 1⟩ := by
  intro fuel
  induction fuel with
  | zero => intro start _ h0; omega
  | succ f ih =>
    intro start h _
    by_cases hlt : start < maxRetries
    · simp only [retryGo, hnc, hf start hlt, Bool.false_eq_true, if_false, if_pos hlt]
      rw [ih (start + 1) (by omega) (by omega)]
      simp only [RetryResult.mk.injEq, true_and, and_true]
      omega
    · have hse : start = maxRetries := by omega
      subst hse
      simp only [retryGo, hnc, hs, Bool.false_eq_true, if_false, if_true]
      have hf0 : f = 0 := by omega
      subst hf0
      rfl

theorem retryLoop_success_false_of_all_fail (maxRetries : Nat) (ok cancel : Nat → Bool)
    (hf : ∀ a, ok a = false) :
    (retryLoop maxRetries ok cancel).success = false := by
  suffices h : ∀ fuel start, (retryGo maxRetries ok cancel start fuel).success = false from
    h (maxRetries + 1) 0
  intro fuel
  induction fuel with
  | zero => intro _; rfl
  | succ f ih =>
    intro start
    by_cases hc : cancel start
    · simp [retryGo, hc]
    · by_cases hlt : start < maxRetries
      · simp [retryGo, hc, hf, hlt, ih]
      · simp [retryGo, hc, hf, hlt]

theorem upload_single_file_retry (fs : Fs) (maxRetries : Nat) (ok cancel : Nat → Bool)
    (localPath : String) (u tb : Nat) :
    (upload_single_file fs maxRetries ok cancel localPath u tb).retry
      = retryLoop maxRetries ok cancel := by
  simp only [upload_single_file]
  by_cases h : (retryLoop maxRetries ok cancel).success
  · rw [if_pos h]
    cases fs localPath <;> rfl
  · rw [if_neg h]

theorem upload_single_file_threaded_retry (fs : Fs) (maxRetries : Nat)
    (ok cancel : Nat → Bool) (localPath : String) (u tb : Nat) (sz : Nat)
    (h : fs localPath = some sz) :
    (upload_single_file_threaded fs maxRetries ok cancel localPath u tb).retry
      = retryLoop maxRetries ok cancel := by
  simp only [upload_single_file_threaded, h]
  by_cases hs : (retryLoop maxRetries ok cancel).success
  · rw [if_pos hs]
  · rw [if_neg hs]

/-- Claim C1: when no cancellation is observed, a task whose adapter fails on
every attempt is attempted exactly `max_retries + 1` times, with a fixed
two-second delay slept between each pair of consecutive failed attempts
(`maxRetries` sleeps), and ends counted as failed; a task succeeding on its
last allowed attempt is also attempted exactly `max_retries + 1` times (no
further attempts after the success) and ends counted as succeeded.  This
holds for both `upload_single_file` and (whenever the file's size can be
read, which is a precondition of its loop) `upload_single_file_threaded`. -/
theorem claim_C1 (fs : Fs) (maxRetries : Nat) (ok cancel : Nat → Bool)
    (localPath : String) (u tb : Nat) (hnc : ∀ a, cancel a = false) :
    ((∀ a, ok a = false) →
      (upload_single_file fs maxRetries ok cancel localPath u tb).retry
        = ⟨maxRetries + 1, false, maxRetries⟩) ∧
    ((∀ a, a < maxRetries → ok a = false) → ok maxRetries = true →
      (upload_single_file fs maxRetries ok cancel localPath u tb).retry
        = ⟨maxRetries + 1, true, maxRetries⟩) ∧
    ((fs localPath).isSome = true →
      ((∀ a, ok a = false) →
        (upload_single_file_threaded fs maxRetries ok cancel localPath u tb).retry
          = ⟨maxRetries + 1, false, maxRetries⟩) ∧
      ((∀ a, a < maxRetries → ok a = false) → ok maxRetries = true →
        (upload_single_file_threaded fs maxRetries ok cancel localPath u tb).retry
          = ⟨maxRetries + 1, true, maxRetries⟩)) := by
  have hAll : (∀ a, ok a = false) →
      retryLoop maxRetries ok cancel = ⟨maxRetries + 1, false, maxRetries⟩ := by
    intro hf
    unfold retryLoop
    rw [retryGo_all_fail maxRetries ok cancel hnc hf (maxRetries + 1) 0 (by omega)]
    simp
  have hLast : (∀ a, a < maxRetries → ok a = false) → ok maxRetries = true →
      retryLoop maxRetries ok cancel = ⟨maxRetries + 1, true, maxRetries⟩ := by
    intro hf hs
    unfold retryLoop
    rw [retryGo_last_success maxRetries ok cancel hnc hf hs (maxRetries + 1) 0 (by omega)
      (by omega)]
    simp
  refine ⟨?_, ?_, ?_⟩
  · intro hf
    rw [upload_single_file_retry, hAll hf]
  · intro hf hs
    rw [upload_single_file_retry, hLast hf hs]
  · intro hsome
    obtain ⟨sz, hsz⟩ := Option.isSome_iff_exists.1 hsome
    constructor
    · intro hf
      rw [upload_single_file_threaded_retry fs maxRetries ok cancel localPath u tb sz hsz,
        hAll hf]
    · intro hf hs
      rw [upload_single_file_threaded_retry fs maxRetries ok cancel localPath u tb sz hsz,
        hLast hf hs]

/-- Witness for C1 at `max_retries = 1`: an always-failing adapter gives two
attempts, one sleep and failure; an adapter succeeding on attempt 1 (the
last allowed) gives two attempts and success. -/
theorem claim_C1_witness :
    (upload_single_file (fun _ => some 5) 1 (fun _ => false) (fun _ => false)
        "a" 0 5).retry = ⟨2, false, 1⟩ ∧
    (upload_single_file (fun _ => some 5) 1 (fun a => decide (a = 1)) (fun _ => false)
        "a" 0 5).retry = ⟨2, true, 1⟩ := by
  constructor
  · exact (claim_C1 (fun _ => some 5) 1 (fun _ => false) (fun _ => false) "a" 0 5
      (fun _ => rfl)).1 (fun _ => rfl)
  · exact (claim_C1 (fun _ => some 5) 1 (fun a => decide (a = 1)) (fun _ => false) "a" 0 5
      (fun _ => rfl)).2.1
      (fun a ha => by simp only [decide_eq_false_iff_not]; omega) rfl

/-! ## Bandwidth throttle -/

theorem throttle_bandwidth_fst (bandwidthLimit : Int) (b s e : ℚ)
    (h : 0 < bandwidthLimit) :
    (throttle_bandwidth bandwidthLimit b s e).1 = b + s := by
  have h' : ¬ bandwidthLimit ≤ 0 := by omega
  simp only [throttle_bandwidth, if_neg h']
  split <;> rfl

/-- Claim C4: the throttle with configured value `bandwidth_limit` enforces a
cap of `C = bandwidth_limit * 1024` bytes/second on a connection.  A
non-positive configured value (`0` = unlimited) inserts no delay and leaves
the counter untouched; otherwise, on each chunk the cumulative byte counter
grows by the chunk size, the time that should have elapsed since the
connection's start is `cumulative_bytes / C`, and the calling thread is
blocked for exactly `cumulative_bytes / C - elapsed` when `elapsed` is
smaller (otherwise not at all).  Across any sequence of chunks the counter
equals the initial counter plus the sum of the delivered chunk sizes. -/
theorem claim_C4 (bandwidthLimit : Int) (bytes0 chunk elapsed : ℚ)
    (chunks : List (ℚ × ℚ)) :
    (bandwidthLimit = 0 →
      throttle_bandwidth bandwidthLimit bytes0 chunk elapsed = (bytes0, 0)) ∧
    (0 < bandwidthLimit →
      throttle_bandwidth bandwidthLimit bytes0 chunk elapsed
        = (bytes0 + chunk,
           if elapsed < (bytes0 + chunk) / ((bandwidthLimit : ℚ) * 1024)
           then (bytes0 + chunk) / ((bandwidthLimit : ℚ) * 1024) - elapsed
           else 0)) ∧
    (0 < bandwidthLimit →
      (throttle_run bandwidthLimit chunks bytes0).1
        = bytes0 + (chunks.map Prod.fst).sum) := by
  refine ⟨?_, ?_, ?_⟩
  · intro h
    subst h
    simp [throttle_bandwidth]
  · intro h
    have h' : ¬ bandwidthLimit ≤ 0 := by omega
    simp only [throttle_bandwidth, if_neg h']
    split <;> rfl
  · intro h
    induction chunks generalizing bytes0 with
    | nil => simp [throttle_run]
    | cons c rest ih =>
      simp only [throttle_run, List.map_cons, List.sum_cons]
      rw [ih (throttle_bandwidth bandwidthLimit bytes0 c.1 c.2).1,
        throttle_bandwidth_fst bandwidthLimit bytes0 c.1 c.2 h]
      ring

/-- Witness for C4: an unlimited connection never sleeps; with
`bandwidth_limit = 2` (cap 2048 bytes/s), a 4096-byte chunk arriving after
one second blocks for exactly one more second. -/
theorem claim_C4_witness :
    throttle_bandwidth 0 3 4 5 = (3, 0) ∧
    throttle_bandwidth 2 0 4096 1 = (4096, 1) := by
  constructor
  · exact (claim_C4 0 3 4 5 []).1 rfl
  · rw [(claim_C4 2 0 4096 1 []).2.1 (by norm_num)]
    norm_num

/-! ## Progress accounting -/

/-- Claim C5: each `progress_cb(percent)` call reports an overall byte count
equal to the global `uploaded_bytes` base plus `size * percent / 100` (the
payload being its integer truncation), so a later callback for the same
file replaces the file's earlier fractional contribution (every call in a
run uses the same base and `uploaded_bytes` itself is never modified by a
callback); it recomputes the overall percent from that value, and when
elapsed time is positive it records a speed sample of
`bytes_this_file / elapsed_this_file`, expressed in KB/s (divided by
1024). -/
theorem claim_C5 (S u total p e : ℚ) (calls : List (ℚ × ℚ)) :
    (progress_callback S u total p e).1.uploadedBytes = pyInt (u + S * p / 100) ∧
    (progress_callback S u total p e).1.percent
      = (if 0 < total then (u + S * p / 100) / total * 100 else 0) ∧
    (0 < e → (progress_callback S u total p e).2 = some (S * p / 100 / 1024 / e)) ∧
    (0 < e → ∀ sp, (progress_callback S u total p e).2 = some sp →
      sp * 1024 * e = S * p / 100) ∧
    (run_progress_callbacks S u total calls).2 = u ∧
    (∀ c ∈ calls,
      progress_callback S u total c.1 c.2 ∈ (run_progress_callbacks S u total calls).1) := by
  refine ⟨rfl, rfl, ?_, ?_, rfl, ?_⟩
  · intro he
    simp [progress_callback, he]
  · intro he sp hsp
    simp only [progress_callback, if_pos he, Option.some.injEq] at hsp
    subst hsp
    field_simp
    ring
  · intro c hc
    exact List.mem_map_of_mem _ hc

/-- Witness for C5: a half-done 200-byte file over a 10-byte base reports 110
overall bytes, and its speed sample after 2 seconds is `100/1024/2` KB/s. -/
theorem claim_C5_witness :
    (progress_callback 200 10 1000 50 2).1.uploadedBytes = pyInt (10 + 200 * 50 / 100) ∧
    (progress_callback 200 10 1000 50 2).2 = some (200 * 50 / 100 / 1024 / 2) := by
  constructor
  · exact (claim_C5 200 10 1000 50 2 []).1
  · exact (claim_C5 200 10 1000 50 2 []).2.2.1 (by norm_num)

/-- Claim C10: whenever `total_bytes` is zero, every aggregate-progress event
reports percent `0`: the division in the in-flight callback and the one in
the terminal-success update are both guarded by a `total_bytes > 0` test,
for the sequential and the threaded variant alike. -/
theorem claim_C10 (S u p e total : ℚ) (uN tbN : Nat) (fs : Fs) (mr : Nat)
    (okT cT : Nat → Bool) (lp : String) (u0 : Nat) :
    (total = 0 → (progress_callback S u total p e).1.percent = 0) ∧
    (tbN = 0 → (final_overall_progress uN tbN).percent = 0) ∧
    (tbN = 0 → ∀ ev, (upload_single_file fs mr okT cT lp u0 tbN).finalEvent = some ev →
      ev.percent = 0) ∧
    (tbN = 0 → ∀ ev,
      (upload_single_file_threaded fs mr okT cT lp u0 tbN).finalEvent = some ev →
      ev.percent = 0) := by
  refine ⟨?_, ?_, ?_, ?_⟩
  · intro h
    subst h
    simp [progress_callback]
  · intro h
    subst h
    simp [final_overall_progress]
  · intro h ev hev
    subst h
    unfold upload_single_file at hev
    by_cases hr : (retryLoop mr okT cT).success
    · simp only [hr, if_true] at hev
      cases hfs : fs lp with
      | none => rw [hfs] at hev; exact absurd hev (by simp)
      | some sz =>
        rw [hfs] at hev
        simp only [Option.some.injEq] at hev
        rw [← hev]
        simp [final_overall_progress]
    · simp [hr] at hev
  · intro h ev hev
    subst h
    unfold upload_single_file_threaded at hev
    cases hfs : fs lp with
    | none => rw [hfs] at hev; exact absurd hev (by simp)
    | some sz =>
      rw [hfs] at hev
      by_cases hr : (retryLoop mr okT cT).success
      · simp only [hr, if_true] at hev
        simp only [Option.some.injEq] at hev
        rw [← hev]
        simp [final_overall_progress]
      · simp [hr] at hev

/-- Witness for C10: with `total_bytes = 0` the callback and the
terminal-success event both report percent `0`. -/
theorem claim_C10_witness :
    (progress_callback 5 1 0 50 1).1.percent = 0 ∧
    (final_overall_progress 7 0).percent = 0 := by
  constructor
  · exact (claim_C10 5 1 50 1 0 7 0 (fun _ => none) 0 (fun _ => true) (fun _ => false)
      "x" 0).1 rfl
  · exact (claim_C10 5 1 50 1 0 7 0 (fun _ => none) 0 (fun _ => true) (fun _ => false)
      "x" 0).2.1 rfl

/-! ## Session completion and totals -/

theorem dispatch_counts (fs : Fs) (mr : Nat) (ok : Nat → Nat → Bool)
    (cb : Nat → Bool) (cr : Nat → Nat → Bool) (tb : Nat) (hcb : ∀ i, cb i = false) :
    ∀ (l : List (String × String)) (i : Nat) (st : DispatchState),
      (upload_files_sequential fs mr ok cb cr tb l i st).successful
        + (upload_files_sequential fs mr ok cb cr tb l i st).failed
      = st.successful + st.failed + l.length := by
  intro l
  induction l with
  | nil => intro i st; rfl
  | cons t rest ih =>
    intro i st
    simp only [upload_files_sequential, hcb, Bool.false_eq_true, if_false]
    by_cases hs :
        (upload_single_file fs mr (ok i) (cr i) t.1 st.uploadedBytes tb).retry.success
    · rw [if_pos hs, ih]
      simp only [List.length_cons]
      omega
    · rw [if_neg hs, ih]
      simp only [List.length_cons]
      omega

theorem threaded_counts (fs : Fs) (mr : Nat) (createOk connectOk : Nat → Bool)
    (ok : Nat → Nat → Bool) (cr : Nat → Nat → Bool) (tb : Nat) :
    ∀ (l : List (String × String)) (i : Nat) (st : DispatchState),
      (upload_files_threaded fs mr createOk connectOk ok cr tb l i st).successful
        + (upload_files_threaded fs mr createOk connectOk ok cr tb l i st).failed
      = st.successful + st.failed + workers_reached createOk connectOk i l.length := by
  intro l
  induction l with
  | nil => intro i st; rfl
  | cons t rest ih =>
    intro i st
    simp only [upload_files_threaded, List.length_cons, workers_reached]
    rw [ih]
    cases hcr : createOk i with
    | false => simp
    | true =>
      cases hco : connectOk i with
      | false => simp
      | true =>
        by_cases hs : (upload_single_file_threaded fs mr (ok i) (cr i) t.1
            st.uploadedBytes tb).retry.success
        · simp only [hs, Bool.not_true, Bool.false_eq_true, if_false, if_true,
            Bool.and_self]
          omega
        · simp only [hs, Bool.not_true, Bool.false_eq_true, if_false,
            Bool.and_self, if_true]
          omega

/-- Counterexample to claim C2 as stated: in multi-threaded dispatch, with
two 5-byte files both existing and every upload succeeding, a worker whose
`connect` fails for the second task (worker.py:198-201) returns before the
tally block, so the session emits `All 2 files uploaded successfully` with
counts `(1, 0)` — the event does not carry counts tallied across all
tasks (2 of them). -/
theorem claim_C2_counterexample :
    (runSessionThreaded (fun _ => some 5) 0 true "m" (fun _ => true)
        (fun j => decide (j = 0)) (fun _ _ => true) (fun _ _ => false) false
        [("a", "ra"), ("b", "rb")]).event
      = ⟨true, "All 2 files uploaded successfully", 1, 0⟩ ∧
    ([("a", "ra"), ("b", "rb")] : List (String × String)).length = 2 := by
  constructor
  · decide
  · rfl

/-- Claim C2 (amended): a failed connect ends the session as Failed,
carrying the connect message and zero attempted tasks; otherwise the
completion event is exactly `emit_completion_signal` applied to the
dispatch tallies, classifying the outcome as Canceled when the cancel flag
was observed, Completed (success, all-uploaded message) when the tallied
failures are zero, and PartialFailure (failure, error-count message)
otherwise — always carrying the tallied counts.  In sequential dispatch
the tallies cover every task (when no cancellation fires); in
multi-threaded dispatch they cover exactly the tasks whose per-worker
adapter was created and connected — a task whose worker creation or
connection fails is counted in neither tally, so the event's counts can
omit tasks. -/
theorem claim_C2 (fs : Fs) (mr : Nat) (connectOk : Bool) (connectMsg : String)
    (ok : Nat → Nat → Bool) (cb : Nat → Bool) (cr : Nat → Nat → Bool)
    (fc : Bool) (tasks : List (String × String)) (createOk wco : Nat → Bool) :
    (connectOk = false →
      runSession fs mr connectOk connectMsg ok cb cr fc tasks
        = ⟨⟨false, connectMsg, 0, 0⟩, 0, 0, 0, 1⟩) ∧
    (connectOk = true →
      (runSession fs mr connectOk connectMsg ok cb cr fc tasks).event
        = emit_completion_signal fc
            (upload_files_sequential fs mr ok cb cr (total_bytes_of fs tasks) tasks 0
              ⟨0, 0, 0⟩).successful
            (upload_files_sequential fs mr ok cb cr (total_bytes_of fs tasks) tasks 0
              ⟨0, 0, 0⟩).failed tasks.length ∧
      ((∀ i, cb i = false) →
        (upload_files_sequential fs mr ok cb cr (total_bytes_of fs tasks) tasks 0
          ⟨0, 0, 0⟩).successful
          + (upload_files_sequential fs mr ok cb cr (total_bytes_of fs tasks) tasks 0
            ⟨0, 0, 0⟩).failed
        = tasks.length)) ∧
    (∀ s f n, fc = true →
      emit_completion_signal fc s f n = ⟨false, "Upload canceled", s, f⟩) ∧
    (∀ s n, fc = false →
      emit_completion_signal fc s 0 n
        = ⟨true, s!"All {n} files uploaded successfully", s, 0⟩) ∧
    (∀ s f n, fc = false → f ≠ 0 →
      emit_completion_signal fc s f n
        = ⟨false, s!"Upload completed with {f} errors", s, f⟩) ∧
    (connectOk = false →
      runSessionThreaded fs mr connectOk connectMsg createOk wco ok cr fc tasks
        = ⟨⟨false, connectMsg, 0, 0⟩, 0, 0, 0, 1⟩) ∧
    (connectOk = true →
      (runSessionThreaded fs mr connectOk connectMsg createOk wco ok cr fc tasks).event
        = emit_completion_signal fc
            (upload_files_threaded fs mr createOk wco ok cr (total_bytes_of fs tasks)
              tasks 0 ⟨0, 0, 0⟩).successful
            (upload_files_threaded fs mr createOk wco ok cr (total_bytes_of fs tasks)
              tasks 0 ⟨0, 0, 0⟩).failed tasks.length) ∧
    ((upload_files_threaded fs mr createOk wco ok cr (total_bytes_of fs tasks)
        tasks 0 ⟨0, 0, 0⟩).successful
      + (upload_files_threaded fs mr createOk wco ok cr (total_bytes_of fs tasks)
          tasks 0 ⟨0, 0, 0⟩).failed
      = workers_reached createOk wco 0 tasks.length) := by
  refine ⟨?_, ?_, ?_, ?_, ?_, ?_, ?_, ?_⟩
  · intro h
    subst h
    rfl
  · intro h
    subst h
    refine ⟨rfl, ?_⟩
    intro hcb
    simpa using dispatch_counts fs mr ok cb cr (total_bytes_of fs tasks) hcb tasks 0 ⟨0, 0, 0⟩
  · intro s f n h
    subst h
    rfl
  · intro s n h
    subst h
    rfl
  · intro s f n h hf
    subst h
    simp [emit_completion_signal, hf]
  · intro h
    subst h
    rfl
  · intro h
    subst h
    rfl
  · simpa using threaded_counts fs mr createOk wco ok cr (total_bytes_of fs tasks)
      tasks 0 ⟨0, 0, 0⟩

/-- Witness for C2: a session whose connect fails reports the connect
message with zero counts and attempts no task. -/
theorem claim_C2_witness :
    runSession (fun _ => none) 0 false "boom" (fun _ _ => false) (fun _ => false)
      (fun _ _ => false) false [] = ⟨⟨false, "boom", 0, 0⟩, 0, 0, 0, 1⟩ ∧
    runSessionThreaded (fun _ => none) 0 false "boom" (fun _ => true) (fun _ => true)
      (fun _ _ => false) (fun _ _ => false) false []
      = ⟨⟨false, "boom", 0, 0⟩, 0, 0, 0, 1⟩ :=
  ⟨(claim_C2 (fun _ => none) 0 false "boom" (fun _ _ => false) (fun _ => false)
      (fun _ _ => false) false [] (fun _ => true) (fun _ => true)).1 rfl,
   (claim_C2 (fun _ => none) 0 false "boom" (fun _ _ => false) (fun _ => false)
      (fun _ _ => false) false [] (fun _ => true) (fun _ => true)).2.2.2.2.2.1 rfl⟩

theorem sum_filterMap_getD {α : Type} (g : α → Option Nat) :
    ∀ l : List α, (l.filterMap g).sum = (l.map (fun a => (g a).getD 0)).sum := by
  intro l
  induction l with
  | nil => rfl
  | cons a rest ih =>
    cases h : g a with
    | none => simp [List.filterMap_cons, h, ih]
    | some b => simp [List.filterMap_cons, h, ih]

/-- Claim C3: the session's `total_bytes` is the value of `total_bytes_of`
over the collected task list — the sum of the sizes of exactly the tasks
whose local file exists at scan time (each missing file contributing `0`
without disturbing the other summands, its removal leaving the sum
unchanged) — and it does not depend on anything the dispatch does
(adapter results, cancellation), i.e. it is fixed before dispatch. -/
theorem claim_C3 (fs : Fs) (mr : Nat) (msg : String) (ok ok' : Nat → Nat → Bool)
    (cb cb' : Nat → Bool) (cr cr' : Nat → Nat → Bool) (fc fc' : Bool)
    (tasks xs ys : List (String × String)) (t : String × String) :
    (runSession fs mr true msg ok cb cr fc tasks).totalBytes
      = total_bytes_of fs tasks ∧
    total_bytes_of fs tasks = (tasks.map (fun a => (fs a.1).getD 0)).sum ∧
    (fs t.1 = none →
      total_bytes_of fs (xs ++ t :: ys) = total_bytes_of fs (xs ++ ys)) ∧
    (runSession fs mr true msg ok cb cr fc tasks).totalBytes
      = (runSession fs mr true msg ok' cb' cr' fc' tasks).totalBytes := by
  refine ⟨rfl, sum_filterMap_getD _ tasks, ?_, rfl⟩
  intro h
  simp [total_bytes_of, List.filterMap_append, List.filterMap_cons, h]

/-- Witness for C3: a vanished file contributes nothing to `total_bytes`
while its neighbours still do. -/
theorem claim_C3_witness :
    total_bytes_of (fun p => if p = "gone" then none else some 3)
        ([("a", "ra")] ++ ("gone", "rg") :: [("b", "rb")])
      = total_bytes_of (fun p => if p = "gone" then none else some 3)
        ([("a", "ra")] ++ [("b", "rb")]) :=
  (claim_C3 (fun p => if p = "gone" then none else some 3) 0 "m" (fun _ _ => false)
    (fun _ _ => false) (fun _ => false) (fun _ => false) (fun _ _ => false)
    (fun _ _ => false) false false [] [("a", "ra")] [("b", "rb")]
    ("gone", "rg")).2.2.1 (by decide)

/-! ## Connection cleanup (claim C7) -/

/-- Counterexample to claim C7 as stated: a per-worker connection whose own
`connect` attempt fails is never disconnected — `upload_worker` returns at
worker.py:201, before the `try`/`finally`, so the disconnect count on that
exit path is `0`, not the claimed exactly-once. -/
theorem claim_C7_counterexample :
    (upload_worker true false (fun _ => some 1) 0 (fun _ => true) (fun _ => false)
      "f.txt" 0 1).disconnects = 0 ∧
    ¬ (upload_worker true false (fun _ => some 1) 0 (fun _ => true) (fun _ => false)
      "f.txt" 0 1).disconnects = 1 := by
  exact ⟨rfl, by decide⟩

/-- Claim C7 (amended): the session-level connection is disconnected exactly
once on every exit path, including when its own connect fails.  A worker
connection in multi-threaded dispatch is disconnected exactly once whenever
its connect succeeded, regardless of the upload's outcome; but a worker
whose adapter could not be created has no connection, and a worker whose
connect attempt fails returns early without invoking `disconnect`. -/
theorem claim_C7 (fs : Fs) (mr : Nat) (connectOk createOk wConnectOk : Bool)
    (msg : String) (ok : Nat → Nat → Bool) (cb : Nat → Bool) (cr : Nat → Nat → Bool)
    (fc : Bool) (tasks : List (String × String)) (okT cT : Nat → Bool)
    (lp : String) (u tb : Nat) :
    (runSession fs mr connectOk msg ok cb cr fc tasks).disconnects = 1 ∧
    (createOk = true → wConnectOk = true →
      (upload_worker createOk wConnectOk fs mr okT cT lp u tb).disconnects = 1) ∧
    (createOk = false →
      (upload_worker createOk wConnectOk fs mr okT cT lp u tb).disconnects = 0) ∧
    (createOk = true → wConnectOk = false →
      (upload_worker createOk wConnectOk fs mr okT cT lp u tb).disconnects = 0) := by
  refine ⟨?_, ?_, ?_, ?_⟩
  · cases connectOk <;> rfl
  · intro h1 h2
    subst h1
    subst h2
    rfl
  · intro h1
    subst h1
    rfl
  · intro h1 h2
    subst h1
    subst h2
    rfl

/-- Witness for C7 (amended): a worker whose connect succeeds disconnects
exactly once even when the upload itself fails. -/
theorem claim_C7_witness :
    (upload_worker true true (fun _ => some 1) 0 (fun _ => false) (fun _ => false)
      "f.txt" 0 1).disconnects = 1 :=
  (claim_C7 (fun _ => some 1) 0 true true true "m" (fun _ _ => true) (fun _ => false)
    (fun _ _ => false) false [] (fun _ => false) (fun _ => false) "f.txt" 0 1).2.1 rfl rfl

/-! ## Monotonicity of uploaded_bytes (claim C6) -/

theorem upload_single_file_uploaded (fs : Fs) (mr : Nat) (ok c : Nat → Bool)
    (lp : String) (u tb : Nat) :
    (upload_single_file fs mr ok c lp u tb).uploadedBytes
      = u + (if (retryLoop mr ok c).success then (fs lp).getD 0 else 0) := by
  by_cases h : (retryLoop mr ok c).success
  · cases hfs : fs lp with
    | none => simp [upload_single_file, h, hfs]
    | some sz => simp [upload_single_file, h, hfs]
  · simp [upload_single_file, h]

theorem dispatchStep_uploaded (b : Bool) (s f up : Nat) :
    ((if b then (⟨s + 1, f, up⟩ : DispatchState) else ⟨s, f + 1, up⟩)).uploadedBytes
      = up := by
  cases b <;> rfl

theorem dispatch_uploaded_mono (fs : Fs) (mr : Nat) (ok : Nat → Nat → Bool)
    (cb : Nat → Bool) (cr : Nat → Nat → Bool) (tb : Nat) :
    ∀ (l : List (String × String)) (i : Nat) (st : DispatchState),
      st.uploadedBytes ≤ (upload_files_sequential fs mr ok cb cr tb l i st).uploadedBytes := by
  intro l
  induction l with
  | nil => intro i st; exact le_refl _
  | cons t rest ih =>
    intro i st
    simp only [upload_files_sequential]
    by_cases hc : cb i
    · rw [if_pos hc]
    · rw [if_neg hc]
      refine le_trans ?_ (ih (i + 1) _)
      rw [dispatchStep_uploaded, upload_single_file_uploaded]
      exact Nat.le_add_right _ _

theorem dispatch_failed_mono (fs : Fs) (mr : Nat) (ok : Nat → Nat → Bool)
    (cb : Nat → Bool) (cr : Nat → Nat → Bool) (tb : Nat) :
    ∀ (l : List (String × String)) (i : Nat) (st : DispatchState),
      st.failed ≤ (upload_files_sequential fs mr ok cb cr tb l i st).failed := by
  intro l
  induction l with
  | nil => intro i st; exact le_refl _
  | cons t rest ih =>
    intro i st
    simp only [upload_files_sequential]
    by_cases hc : cb i
    · rw [if_pos hc]
    · rw [if_neg hc]
      refine le_trans ?_ (ih (i + 1) _)
      by_cases hs :
          (upload_single_file fs mr (ok i) (cr i) t.1 st.uploadedBytes tb).retry.success
      · rw [if_pos hs]
      · rw [if_neg hs]
        exact Nat.le_succ _

theorem dispatch_take_mono (fs : Fs) (mr : Nat) (ok : Nat → Nat → Bool)
    (cb : Nat → Bool) (cr : Nat → Nat → Bool) (tb : Nat) :
    ∀ (l : List (String × String)) (i : Nat) (st : DispatchState) (k : Nat),
      (upload_files_sequential fs mr ok cb cr tb (l.take k) i st).uploadedBytes
        ≤ (upload_files_sequential fs mr ok cb cr tb (l.take (k + 1)) i st).uploadedBytes := by
  intro l
  induction l with
  | nil =>
    intro i st k
    simp [upload_files_sequential]
  | cons t rest ih =>
    intro i st k
    cases k with
    | zero =>
      simpa [upload_files_sequential] using
        dispatch_uploaded_mono fs mr ok cb cr tb [t] i st
    | succ k' =>
      simp only [List.take_succ_cons, upload_files_sequential]
      by_cases hc : cb i
      · rw [if_pos hc, if_pos hc]
      · rw [if_neg hc, if_neg hc]
        exact ih (i + 1) _ k'

theorem dispatch_all_success (fs : Fs) (mr : Nat) (ok : Nat → Nat → Bool)
    (cb : Nat → Bool) (cr : Nat → Nat → Bool) (tb : Nat) (hcb : ∀ i, cb i = false) :
    ∀ (l : List (String × String)) (i : Nat) (st : DispatchState),
      (∀ k a t, l[k]? = some t → fs t.1 = none → ok (i + k) a = false) →
      (upload_files_sequential fs mr ok cb cr tb l i st).failed = st.failed →
      (upload_files_sequential fs mr ok cb cr tb l i st).uploadedBytes
          = st.uploadedBytes + total_bytes_of fs l
        ∧ (upload_files_sequential fs mr ok cb cr tb l i st).successful
          = st.successful + l.length := by
  intro l
  induction l with
  | nil =>
    intro i st _ _
    simp [upload_files_sequential, total_bytes_of]
  | cons t rest ih =>
    intro i st hmiss hfail
    simp only [upload_files_sequential, hcb, Bool.false_eq_true, if_false] at hfail ⊢
    by_cases hs :
        (upload_single_file fs mr (ok i) (cr i) t.1 st.uploadedBytes tb).retry.success
    · rw [if_pos hs] at hfail ⊢
      cases hfs : fs t.1 with
      | none =>
        exfalso
        have hok : ∀ a, ok i a = false := by
          intro a
          have := hmiss 0 a t (by simp) hfs
          simpa using this
        have hfalse := retryLoop_success_false_of_all_fail mr (ok i) (cr i) hok
        rw [upload_single_file_retry] at hs
        rw [hfalse] at hs
        exact Bool.false_ne_true hs
      | some sz =>
        have hup : (upload_single_file fs mr (ok i) (cr i) t.1 st.uploadedBytes
            tb).uploadedBytes = st.uploadedBytes + sz := by
          rw [upload_single_file_uploaded]
          rw [upload_single_file_retry] at hs
          rw [if_pos hs, hfs]
          rfl
        have hmiss' : ∀ k a t', rest[k]? = some t' → fs t'.1 = none →
            ok (i + 1 + k) a = false := by
          intro k a t' hk hn
          have h2 := hmiss (k + 1) a t' (by simpa using hk) hn
          rwa [show i + (k + 1) = i + 1 + k by omega] at h2
        obtain ⟨h1, h2⟩ := ih (i + 1)
          ⟨st.successful + 1, st.failed,
            (upload_single_file fs mr (ok i) (cr i) t.1 st.uploadedBytes tb).uploadedBytes⟩
          hmiss' hfail
        constructor
        · rw [h1, hup]
          simp only [total_bytes_of, List.filterMap_cons, hfs, List.sum_cons]
          omega
        · rw [h2]
          simp only [List.length_cons]
          omega
    · exfalso
      rw [if_neg hs] at hfail
      have := dispatch_failed_mono fs mr ok cb cr tb rest (i + 1)
        ⟨st.successful, st.failed + 1,
          (upload_single_file fs mr (ok i) (cr i) t.1 st.uploadedBytes tb).uploadedBytes⟩
      rw [hfail] at this
      simp at this

theorem upload_single_file_threaded_uploaded (fs : Fs) (mr : Nat) (ok c : Nat → Bool)
    (lp : String) (u tb : Nat) :
    (upload_single_file_threaded fs mr ok c lp u tb).uploadedBytes
      = u + (if (upload_single_file_threaded fs mr ok c lp u tb).retry.success
             then (fs lp).getD 0 else 0) := by
  cases hfs : fs lp with
  | none => simp [upload_single_file_threaded, hfs]
  | some sz =>
    by_cases h : (retryLoop mr ok c).success
    · simp [upload_single_file_threaded, hfs, h]
    · simp [upload_single_file_threaded, hfs, h]

theorem threaded_uploaded_mono (fs : Fs) (mr : Nat) (createOk connectOk : Nat → Bool)
    (ok : Nat → Nat → Bool) (cr : Nat → Nat → Bool) (tb : Nat) :
    ∀ (l : List (String × String)) (i : Nat) (st : DispatchState),
      st.uploadedBytes
        ≤ (upload_files_threaded fs mr createOk connectOk ok cr tb l i st).uploadedBytes := by
  intro l
  induction l with
  | nil => intro i st; exact le_refl _
  | cons t rest ih =>
    intro i st
    simp only [upload_files_threaded]
    refine le_trans ?_ (ih (i + 1) _)
    cases hcr : createOk i with
    | false => simp
    | true =>
      cases hco : connectOk i with
      | false => simp
      | true =>
        simp only [Bool.not_true, Bool.false_eq_true, if_false]
        rw [dispatchStep_uploaded, upload_single_file_threaded_uploaded]
        exact Nat.le_add_right _ _

theorem threaded_failed_mono (fs : Fs) (mr : Nat) (createOk connectOk : Nat → Bool)
    (ok : Nat → Nat → Bool) (cr : Nat → Nat → Bool) (tb : Nat) :
    ∀ (l : List (String × String)) (i : Nat) (st : DispatchState),
      st.failed
        ≤ (upload_files_threaded fs mr createOk connectOk ok cr tb l i st).failed := by
  intro l
  induction l with
  | nil => intro i st; exact le_refl _
  | cons t rest ih =>
    intro i st
    simp only [upload_files_threaded]
    refine le_trans ?_ (ih (i + 1) _)
    cases hcr : createOk i with
    | false => simp
    | true =>
      cases hco : connectOk i with
      | false => simp
      | true =>
        simp only [Bool.not_true, Bool.false_eq_true, if_false]
        by_cases hs : (upload_single_file_threaded fs mr (ok i) (cr i) t.1
            st.uploadedBytes tb).retry.success
        · rw [if_pos hs]
        · rw [if_neg hs]
          exact Nat.le_succ _

theorem threaded_all_success (fs : Fs) (mr : Nat) (createOk connectOk : Nat → Bool)
    (ok : Nat → Nat → Bool) (cr : Nat → Nat → Bool) (tb : Nat)
    (hcr : ∀ j, createOk j = true) (hco : ∀ j, connectOk j = true) :
    ∀ (l : List (String × String)) (i : Nat) (st : DispatchState),
      (upload_files_threaded fs mr createOk connectOk ok cr tb l i st).failed = st.failed →
      (upload_files_threaded fs mr createOk connectOk ok cr tb l i st).uploadedBytes
          = st.uploadedBytes + total_bytes_of fs l
        ∧ (upload_files_threaded fs mr createOk connectOk ok cr tb l i st).successful
          = st.successful + l.length := by
  intro l
  induction l with
  | nil =>
    intro i st _
    simp [upload_files_threaded, total_bytes_of]
  | cons t rest ih =>
    intro i st hfail
    simp only [upload_files_threaded, hcr, hco, Bool.not_true, Bool.false_eq_true,
      if_false] at hfail ⊢
    by_cases hs : (upload_single_file_threaded fs mr (ok i) (cr i) t.1
        st.uploadedBytes tb).retry.success
    · rw [if_pos hs] at hfail ⊢
      cases hfs : fs t.1 with
      | none =>
        exfalso
        simp [upload_single_file_threaded, hfs] at hs
      | some sz =>
        have hup : (upload_single_file_threaded fs mr (ok i) (cr i) t.1 st.uploadedBytes
            tb).uploadedBytes = st.uploadedBytes + sz := by
          rw [upload_single_file_threaded_uploaded, if_pos hs, hfs]
          rfl
        obtain ⟨h1, h2⟩ := ih (i + 1)
          ⟨st.successful + 1, st.failed,
            (upload_single_file_threaded fs mr (ok i) (cr i) t.1 st.uploadedBytes
              tb).uploadedBytes⟩
          hfail
        constructor
        · rw [h1, hup]
          simp only [total_bytes_of, List.filterMap_cons, hfs, List.sum_cons]
          omega
        · rw [h2]
          simp only [List.length_cons]
          omega
    · exfalso
      rw [if_neg hs] at hfail
      have := threaded_failed_mono fs mr createOk connectOk ok cr tb rest (i + 1)
        ⟨st.successful, st.failed + 1,
          (upload_single_file_threaded fs mr (ok i) (cr i) t.1 st.uploadedBytes
            tb).uploadedBytes⟩
      rw [hfail] at this
      simp at this

/-- Counterexample to claim C6 as stated: in multi-threaded dispatch, with
two existing 5-byte files and every upload succeeding, a worker whose
`connect` fails for the second task drops that task from both tallies
(worker.py:198-201 returns before worker.py:208-212), so the session ends
Completed (success, zero tallied failures, no cancel) with
`uploaded_bytes = 5` strictly below `total_bytes = 10`. -/
theorem claim_C6_counterexample :
    (runSessionThreaded (fun _ => some 5) 0 true "m" (fun _ => true)
        (fun j => decide (j = 0)) (fun _ _ => true) (fun _ _ => false) false
        [("a", "ra"), ("b", "rb")]).event.success = true ∧
    (runSessionThreaded (fun _ => some 5) 0 true "m" (fun _ => true)
        (fun j => decide (j = 0)) (fun _ _ => true) (fun _ _ => false) false
        [("a", "ra"), ("b", "rb")]).uploadedBytes = 5 ∧
    (runSessionThreaded (fun _ => some 5) 0 true "m" (fun _ => true)
        (fun j => decide (j = 0)) (fun _ _ => true) (fun _ _ => false) false
        [("a", "ra"), ("b", "rb")]).totalBytes = 10 ∧
    ¬ (runSessionThreaded (fun _ => some 5) 0 true "m" (fun _ => true)
        (fun j => decide (j = 0)) (fun _ _ => true) (fun _ _ => false) false
        [("a", "ra"), ("b", "rb")]).uploadedBytes
      = (runSessionThreaded (fun _ => some 5) 0 true "m" (fun _ => true)
          (fun j => decide (j = 0)) (fun _ _ => true) (fun _ _ => false) false
          [("a", "ra"), ("b", "rb")]).totalBytes := by
  refine ⟨?_, ?_, ?_, ?_⟩ <;> decide

/-- Claim C6 (amended): `uploaded_bytes` is increased only at a task's
terminal success and then by the task's full on-disk size (not the last
reported percent); it is monotonically non-decreasing across both the
sequential and the threaded dispatch (and between consecutive prefixes of
the sequential task list); and a Completed outcome (cancel flag never
observed — the flag being monotone — and success reported, i.e. zero
tallied failures) implies `uploaded_bytes = total_bytes` in sequential
dispatch, under the adapter's guarantee that a missing local file never
uploads successfully, and in multi-threaded dispatch only when every
task's worker was created and connected — a worker create/connect failure
drops its task from both tallies, so a threaded session can end Completed
with `uploaded_bytes < total_bytes`. -/
theorem claim_C6 (fs : Fs) (mr : Nat) (msg : String) (ok : Nat → Nat → Bool)
    (cb : Nat → Bool) (cr : Nat → Nat → Bool) (okT cT : Nat → Bool)
    (lp : String) (u tb : Nat) (tasks : List (String × String))
    (st0 : DispatchState) (i k : Nat) (createOk wco : Nat → Bool) :
    (upload_single_file fs mr okT cT lp u tb).uploadedBytes
      = u + (if (retryLoop mr okT cT).success then (fs lp).getD 0 else 0) ∧
    st0.uploadedBytes
      ≤ (upload_files_sequential fs mr ok cb cr tb tasks i st0).uploadedBytes ∧
    (upload_files_sequential fs mr ok cb cr tb (tasks.take k) i st0).uploadedBytes
      ≤ (upload_files_sequential fs mr ok cb cr tb (tasks.take (k + 1)) i st0).uploadedBytes ∧
    ((∀ j, cb j = false) →
      (∀ j a t, tasks[j]? = some t → fs t.1 = none → ok j a = false) →
      (runSession fs mr true msg ok cb cr false tasks).event.success = true →
      (runSession fs mr true msg ok cb cr false tasks).uploadedBytes
        = (runSession fs mr true msg ok cb cr false tasks).totalBytes) ∧
    st0.uploadedBytes
      ≤ (upload_files_threaded fs mr createOk wco ok cr tb tasks i st0).uploadedBytes ∧
    ((∀ j, createOk j = true) → (∀ j, wco j = true) →
      (runSessionThreaded fs mr true msg createOk wco ok cr false tasks).event.success
        = true →
      (runSessionThreaded fs mr true msg createOk wco ok cr false tasks).uploadedBytes
        = (runSessionThreaded fs mr true msg createOk wco ok cr false tasks).totalBytes) := by
  refine ⟨upload_single_file_uploaded fs mr okT cT lp u tb,
    dispatch_uploaded_mono fs mr ok cb cr tb tasks i st0,
    dispatch_take_mono fs mr ok cb cr tb tasks i st0 k, ?_,
    threaded_uploaded_mono fs mr createOk wco ok cr tb tasks i st0, ?_⟩
  case refine_2 =>
    intro hcr hco hsucc
    have hfail0 :
        (upload_files_threaded fs mr createOk wco ok cr (total_bytes_of fs tasks) tasks 0
          ⟨0, 0, 0⟩).failed = (⟨0, 0, 0⟩ : DispatchState).failed := by
      by_contra hne
      have hevent : (runSessionThreaded fs mr true msg createOk wco ok cr false tasks).event
          = emit_completion_signal false
              (upload_files_threaded fs mr createOk wco ok cr (total_bytes_of fs tasks)
                tasks 0 ⟨0, 0, 0⟩).successful
              (upload_files_threaded fs mr createOk wco ok cr (total_bytes_of fs tasks)
                tasks 0 ⟨0, 0, 0⟩).failed tasks.length := rfl
      rw [hevent] at hsucc
      have hne' : (upload_files_threaded fs mr createOk wco ok cr (total_bytes_of fs tasks)
          tasks 0 ⟨0, 0, 0⟩).failed ≠ 0 := by simpa using hne
      simp [emit_completion_signal, hne'] at hsucc
    obtain ⟨h1, _⟩ := threaded_all_success fs mr createOk wco ok cr
      (total_bytes_of fs tasks) hcr hco tasks 0 ⟨0, 0, 0⟩ hfail0
    show (upload_files_threaded fs mr createOk wco ok cr (total_bytes_of fs tasks) tasks 0
        ⟨0, 0, 0⟩).uploadedBytes = total_bytes_of fs tasks
    rw [h1]
    exact Nat.zero_add _
  intro hcb hmiss hsucc
  have hmiss0 : ∀ j a t, tasks[j]? = some t → fs t.1 = none → ok (0 + j) a = false := by
    intro j a t hj hn
    simpa using hmiss j a t hj hn
  have hfail0 :
      (upload_files_sequential fs mr ok cb cr (total_bytes_of fs tasks) tasks 0
        ⟨0, 0, 0⟩).failed = (⟨0, 0, 0⟩ : DispatchState).failed := by
    by_contra hne
    have hevent : (runSession fs mr true msg ok cb cr false tasks).event
        = emit_completion_signal false
            (upload_files_sequential fs mr ok cb cr (total_bytes_of fs tasks) tasks 0
              ⟨0, 0, 0⟩).successful
            (upload_files_sequential fs mr ok cb cr (total_bytes_of fs tasks) tasks 0
              ⟨0, 0, 0⟩).failed tasks.length := rfl
    rw [hevent] at hsucc
    have hne' : (upload_files_sequential fs mr ok cb cr (total_bytes_of fs tasks) tasks 0
        ⟨0, 0, 0⟩).failed ≠ 0 := by simpa using hne
    simp [emit_completion_signal, hne'] at hsucc
  obtain ⟨h1, _⟩ := dispatch_all_success fs mr ok cb cr (total_bytes_of fs tasks) hcb
    tasks 0 ⟨0, 0, 0⟩ hmiss0 hfail0
  show (upload_files_sequential fs mr ok cb cr (total_bytes_of fs tasks) tasks 0
      ⟨0, 0, 0⟩).uploadedBytes = total_bytes_of fs tasks
  rw [h1]
  exact Nat.zero_add _

/-- Witness for C6: one existing 5-byte file uploaded successfully yields a
Completed session with `uploaded_bytes = total_bytes`. -/
theorem claim_C6_witness :
    (runSession (fun _ => some 5) 0 true "m" (fun _ _ => true) (fun _ => false)
      (fun _ _ => false) false [("a", "r")]).uploadedBytes
      = (runSession (fun _ => some 5) 0 true "m" (fun _ _ => true) (fun _ => false)
        (fun _ _ => false) false [("a", "r")]).totalBytes ∧
    (runSessionThreaded (fun _ => some 5) 0 true "m" (fun _ => true) (fun _ => true)
      (fun _ _ => true) (fun _ _ => false) false [("a", "r")]).uploadedBytes
      = (runSessionThreaded (fun _ => some 5) 0 true "m" (fun _ => true) (fun _ => true)
        (fun _ _ => true) (fun _ _ => false) false [("a", "r")]).totalBytes :=
  ⟨(claim_C6 (fun _ => some 5) 0 "m" (fun _ _ => true) (fun _ => false) (fun _ _ => false)
      (fun _ => true) (fun _ => false) "a" 0 5 [("a", "r")] ⟨0, 0, 0⟩ 0 0
      (fun _ => true) (fun _ => true)).2.2.2.1
      (fun _ => rfl) (fun _ _ t _ hn => nomatch hn) (by decide),
   (claim_C6 (fun _ => some 5) 0 "m" (fun _ _ => true) (fun _ => false) (fun _ _ => false)
      (fun _ => true) (fun _ => false) "a" 0 5 [("a", "r")] ⟨0, 0, 0⟩ 0 0
      (fun _ => true) (fun _ => true)).2.2.2.2.2
      (fun _ => rfl) (fun _ => rfl) (by decide)⟩

/-! ## File collector (claims C8, C9) -/

theorem attach_flatMap_val {α β : Type} (l : List α) (f : α → List β) :
    l.attach.flatMap (fun x => f x.1) = l.flatMap f := by
  induction l with
  | nil => rfl
  | cons a t ih => simp [List.attach_cons, List.flatMap_cons, List.flatMap_map, ih]

theorem walkTree_node (ign : String → Bool) (pre : List String)
    (files : List String) (subdirs : List (String × Tree)) :
    walkTree ign pre (Tree.node files subdirs)
      = (files.filter (fun n => !ign n)).map (fun n => pre ++ [n]) ++
        subdirs.flatMap (fun d =>
          if ign d.1 then [] else walkTree ign (pre ++ [d.1]) d.2) := by
  rw [walkTree]
  congr 1
  exact attach_flatMap_val subdirs
    (fun d => if ign d.1 then [] else walkTree ign (pre ++ [d.1]) d.2)

/-- Every path produced by the pruned walk is the walk root extended by a
nonempty relative path none of whose components (intermediate directories
or the final file name) is ignored. -/
theorem walkTree_spec (ign : String → Bool) :
    ∀ (t : Tree) (pre x : List String), x ∈ walkTree ign pre t →
      ∃ rest, x = pre ++ rest ∧ rest ≠ [] ∧ ∀ c ∈ rest, ign c = false := by
  have main : ∀ (n : Nat) (t : Tree), sizeOf t ≤ n → ∀ (pre x : List String),
      x ∈ walkTree ign pre t →
      ∃ rest, x = pre ++ rest ∧ rest ≠ [] ∧ ∀ c ∈ rest, ign c = false := by
    intro n
    induction n with
    | zero =>
      intro t ht
      cases t with
      | node files subdirs =>
        intro pre x _
        exfalso
        simp at ht
    | succ n ih =>
      intro t ht pre x hx
      cases t with
      | node files subdirs =>
        rw [walkTree_node] at hx
        rcases List.mem_append.1 hx with hx1 | hx2
        · rcases List.mem_map.1 hx1 with ⟨nm, hnm, rfl⟩
          have hfn := List.mem_filter.1 hnm
          refine ⟨[nm], rfl, by simp, ?_⟩
          intro c hc
          have hceq : c = nm := by simpa using hc
          subst hceq
          simpa using hfn.2
        · rcases List.mem_flatMap.1 hx2 with ⟨d, hd, hxd⟩
          by_cases hig : ign d.1
          · rw [if_pos hig] at hxd
            exact absurd hxd (List.not_mem_nil x)
          · rw [if_neg hig] at hxd
            have hszd : sizeOf d.2 ≤ n := by
              have h1 := List.sizeOf_lt_of_mem hd
              simp at ht
              cases hdd : d with
              | mk nm sub =>
                rw [hdd] at h1
                simp at h1 ⊢
                omega
            obtain ⟨rest, hre, hne, hall⟩ := ih d.2 hszd (pre ++ [d.1]) x hxd
            refine ⟨d.1 :: rest, ?_, by simp, ?_⟩
            · rw [hre, List.append_assoc]
              rfl
            · intro c hc
              rcases List.mem_cons.1 hc with hc1 | hc2
              · subst hc1
                simpa using hig
              · exact hall c hc2
  intro t pre x hx
  exact main (sizeOf t) t (le_refl _) pre x hx

theorem getLastD_append_of_ne_nil (l1 l2 : List String) (d : String) (h : l2 ≠ []) :
    (l1 ++ l2).getLastD d = l2.getLastD d := by
  rw [List.getLastD_eq_getLast? d (l1 ++ l2), List.getLastD_eq_getLast? d l2,
    List.getLast?_append_of_ne_nil l1 h]

/-- `os.path.relpath(p ++ rest, dirname(p))` for a nonempty root `p`: dropping
the length of the root's parent from the root-prefixed path leaves the
root's base name followed by the relative path. -/
theorem drop_parent : ∀ (p rest : List String), p ≠ [] →
    (p ++ rest).drop p.dropLast.length = p.getLastD "" :: rest := by
  intro p
  induction p with
  | nil => intro rest h; exact absurd rfl h
  | cons a p' ih =>
    intro rest _
    cases p' with
    | nil => simp [List.dropLast]
    | cons b p'' =>
      have h1 : ((a :: b :: p'') ++ rest).drop ((a :: b :: p'').dropLast.length)
          = ((b :: p'') ++ rest).drop ((b :: p'').dropLast.length) := rfl
      rw [h1, ih rest (by simp)]
      simp [List.getLastD_eq_getLast?, List.getLast?_cons_cons]

theorem should_ignore_false_parts (ihf : Bool) (pats : List (String → Bool))
    (name : String) (h : should_ignore ihf pats name = false) :
    (∀ q ∈ pats, q name = false) ∧ (ihf = false → startsWithDot name = false) := by
  simp only [should_ignore, Bool.or_eq_false_iff] at h
  obtain ⟨h1, h2⟩ := h
  constructor
  · intro q hq
    rw [List.any_eq_false] at h2
    simpa using h2 q hq
  · intro hihf
    subst hihf
    simpa using h1

/-- Claim C8: a file collected under a directory root has a local path that
extends the root by a nonempty relative path, and its remote path is that
relative path — taken relative to the root itself in contents-only mode
and to the root's parent (so prefixed by the root's base name) in preserve
mode — joined under the configured remote base with forward slashes.  In
particular, with an empty remote base, `root/sub/file.txt` collected under
`root` maps to `sub/file.txt` in contents-only mode and to
`root/sub/file.txt` in preserve mode. -/
theorem claim_C8 (ihf : Bool) (pats : List (String → Bool)) (remoteDir : String)
    (p : List String) (tree : Tree) (contentsOnly : Bool)
    (pair : List String × String) (hp : p ≠ []) :
    (pair ∈ collect_root ihf pats contentsOnly remoteDir (RootSel.dirRoot p tree) →
      ∃ rest, rest ≠ [] ∧ pair.1 = p ++ rest ∧
        pair.2 = joinRemote remoteDir (renderPath
          (if contentsOnly then rest else p.getLastD "" :: rest))) ∧
    collect_files false [] true ""
        [RootSel.dirRoot ["root"] (Tree.node [] [("sub", Tree.node ["file.txt"] [])])]
      = [(["root", "sub", "file.txt"], "sub/file.txt")] ∧
    collect_files false [] false ""
        [RootSel.dirRoot ["root"] (Tree.node [] [("sub", Tree.node ["file.txt"] [])])]
      = [(["root", "sub", "file.txt"], "root/sub/file.txt")] := by
  refine ⟨?_, ?_, ?_⟩
  · intro hmem
    simp only [collect_root] at hmem
    by_cases hig : should_ignore ihf pats (p.getLastD "")
    · rw [if_pos hig] at hmem
      exact absurd hmem (List.not_mem_nil pair)
    · rw [if_neg hig] at hmem
      rcases List.mem_map.1 hmem with ⟨localPath, hl, rfl⟩
      obtain ⟨rest, hre, hne, hall⟩ := walkTree_spec _ tree p localPath hl
      refine ⟨rest, hne, by simpa using hre, ?_⟩
      dsimp only
      rw [hre]
      cases contentsOnly with
      | true =>
        show joinRemote remoteDir (renderPath ((p ++ rest).drop p.length))
          = joinRemote remoteDir (renderPath rest)
        rw [List.drop_left]
      | false =>
        show joinRemote remoteDir (renderPath ((p ++ rest).drop p.dropLast.length))
          = joinRemote remoteDir (renderPath (p.getLastD "" :: rest))
        rw [drop_parent p rest hp]
  · simp only [collect_files, collect_root, walkTree_node, List.flatMap_cons,
      List.flatMap_nil]
    decide
  · simp only [collect_files, collect_root, walkTree_node, List.flatMap_cons,
      List.flatMap_nil]
    decide

/-- Witness for C8: the concrete `root/sub/file.txt` example in contents-only
mode. -/
theorem claim_C8_witness :
    collect_files false [] true ""
        [RootSel.dirRoot ["root"] (Tree.node [] [("sub", Tree.node ["file.txt"] [])])]
      = [(["root", "sub", "file.txt"], "sub/file.txt")] :=
  (claim_C8 false [] "" ["root"] (Tree.node [] [("sub", Tree.node ["file.txt"] [])])
    true ([], "") (by simp)).2.1

/-- Claim C9: every collected entry's file name is not ignored — in
particular no configured pattern matches it and, when hidden-file inclusion
is off, it does not start with a dot; under a directory root every
component of the collected relative path is non-ignored (pruned ignored
subdirectories contribute nothing); and a root that raises `OSError` is
skipped without disturbing the contributions of the other roots. -/
theorem claim_C9 (ihf : Bool) (pats : List (String → Bool)) (contentsOnly : Bool)
    (remoteDir : String) (roots xs ys : List RootSel) (r : List String)
    (pair : List String × String) :
    (pair ∈ collect_files ihf pats contentsOnly remoteDir roots →
      should_ignore ihf pats (pair.1.getLastD "") = false ∧
      (∀ q ∈ pats, q (pair.1.getLastD "") = false) ∧
      (ihf = false → startsWithDot (pair.1.getLastD "") = false)) ∧
    (∀ p tree,
      pair ∈ collect_root ihf pats contentsOnly remoteDir (RootSel.dirRoot p tree) →
      ∀ c ∈ pair.1.drop p.length, should_ignore ihf pats c = false) ∧
    collect_files ihf pats contentsOnly remoteDir (xs ++ RootSel.badRoot r :: ys)
      = collect_files ihf pats contentsOnly remoteDir (xs ++ ys) := by
  refine ⟨?_, ?_, ?_⟩
  · intro hmem
    suffices hbase : should_ignore ihf pats (pair.1.getLastD "") = false by
      obtain ⟨hq, hh⟩ := should_ignore_false_parts ihf pats _ hbase
      exact ⟨hbase, hq, hh⟩
    rcases List.mem_flatMap.1 hmem with ⟨root, _, hmr⟩
    cases root with
    | fileRoot q =>
      simp only [collect_root] at hmr
      by_cases hig : should_ignore ihf pats (q.getLastD "")
      · rw [if_pos hig] at hmr
        exact absurd hmr (List.not_mem_nil pair)
      · rw [if_neg hig] at hmr
        have hpq : pair = (q, q.getLastD "") := by simpa using hmr
        subst hpq
        simpa using hig
    | dirRoot q tree =>
      simp only [collect_root] at hmr
      by_cases hig : should_ignore ihf pats (q.getLastD "")
      · rw [if_pos hig] at hmr
        exact absurd hmr (List.not_mem_nil pair)
      · rw [if_neg hig] at hmr
        rcases List.mem_map.1 hmr with ⟨localPath, hl, rfl⟩
        obtain ⟨rest, hre, hne, hall⟩ := walkTree_spec _ tree q localPath hl
        dsimp only
        rw [hre, getLastD_append_of_ne_nil q rest "" hne]
        have hmem2 : rest.getLastD "" ∈ rest := by
          rw [List.getLastD_eq_getLast? "" rest, List.getLast?_eq_getLast rest hne]
          exact List.getLast_mem hne
        exact hall _ hmem2
    | badRoot q =>
      simp only [collect_root] at hmr
      exact absurd hmr (List.not_mem_nil pair)
  · intro p tree hmr c hc
    simp only [collect_root] at hmr
    by_cases hig : should_ignore ihf pats (p.getLastD "")
    · rw [if_pos hig] at hmr
      exact absurd hmr (List.not_mem_nil pair)
    · rw [if_neg hig] at hmr
      rcases List.mem_map.1 hmr with ⟨localPath, hl, rfl⟩
      obtain ⟨rest, hre, hne, hall⟩ := walkTree_spec _ tree p localPath hl
      dsimp only at hc
      rw [hre, List.drop_left] at hc
      exact hall c hc
  · simp [collect_files, collect_root, List.flatMap_append, List.flatMap_cons]

/-- Witness for C9: a plain visible file passes the filter and its facts are
recovered from its membership in the collected set. -/
theorem claim_C9_witness :
    should_ignore false [] ((["a.txt"] : List String).getLastD "") = false ∧
    (∀ q ∈ ([] : List (String → Bool)), q ((["a.txt"] : List String).getLastD "") = false) ∧
    (false = false → startsWithDot ((["a.txt"] : List String).getLastD "") = false) :=
  (claim_C9 false [] true "" [RootSel.fileRoot ["a.txt"]] [] [] []
    (["a.txt"], "a.txt")).1 (by decide)

end Uploader
